import Mathlib

/-!
Shallow embedding of `src/image_recognition/image_recognition_main.py`
(automotive image-recognition module).

Conventions of the embedding:
* Python `str` is Lean `String`; `str.lower()` is `pyLower` (ASCII and the
  Latin-1 uppercase block, which covers every character used by this module).
* Python `needle in hay` on strings is `strHasSub needle hay`.
* Python `float` scores are embedded as `ℚ` (only order comparisons matter here).
* Python dicts that the code iterates over are embedded as association lists
  in insertion order; the dict-comprehension of `detect_labels` is
  `buildLabelMap` (last write wins, key keeps its first position).
* External effects (OpenCV image decoding, file reads, the Cloud Vision API
  call, DNN inference) are oracles passed in through environment records, and
  the operations additionally return the list of effects they attempted.
* A Python exception raised by an external call is an `Except.error`; the
  `try/except` blocks of the source convert it into an `{error: ...}` result.
-/

/-- Lower-case one character the way Python `str.lower` does on the code
points this module uses: ASCII `A`-`Z` and the Latin-1 uppercase block
`À`-`Þ` (U+00C0-U+00DE, excluding the multiplication sign U+00D7). -/
def lowerChar (c : Char) : Char :=
  if 65 ≤ c.toNat ∧ c.toNat ≤ 90 then Char.ofNat (c.toNat + 32)
  else if 192 ≤ c.toNat ∧ c.toNat ≤ 222 ∧ c.toNat ≠ 215 then Char.ofNat (c.toNat + 32)
  else c

/-- Embedding of Python `s.lower()`. -/
def pyLower (s : String) : String :=
  ⟨s.data.map lowerChar⟩

/-- Helper for `hasSub`: the first list is an initial segment of the second. -/
def isPrefOf : List Char → List Char → Bool
  | [], _ => true
  | _ :: _, [] => false
  | a :: as, b :: bs => a == b && isPrefOf as bs

/-- Substring test on character lists; `hasSub n h` is Python `n in h`. -/
def hasSub (needle : List Char) : List Char → Bool
  | [] => isPrefOf needle []
  | b :: t => isPrefOf needle (b :: t) || hasSub needle t

/-- Embedding of Python `needle in hay` for strings. -/
def strHasSub (needle hay : String) : Bool :=
  hasSub needle.data hay.data

/-- The apostrophe character as a string, used to spell the French messages
of the source verbatim. -/
def ap : String := String.singleton (Char.ofNat 39)

/- Messages of the source, verbatim. -/

/-- Message of `analyze_image` when `self.initialized` is false (line 89). -/
def msgNotInit : String :=
  "Moteur d" ++ ap ++ "analyse d" ++ ap ++ "image non initialisé correctement"

/-- Message of `analyze_image` when `cv2.imread` fails (line 96); the source
appends the path to it. -/
def msgCantLoad : String := "Impossible de charger l" ++ ap ++ "image: "

/-- Message of `analyze_image` when neither argument is supplied (line 100). -/
def msgNoImage : String := "Aucune image fournie"

/-- Message prefix of the catch-all of `analyze_image` (line 109). -/
def msgAnalysisErr : String := "Erreur lors de l" ++ ap ++ "analyse de l" ++ ap ++ "image: "

/-- Error of `detect_labels` when the Vision client is unavailable (line 123). -/
def msgApiUnavail : String := "API Google Cloud Vision non disponible"

/-- Companion message of `msgApiUnavail` (line 124). -/
def msgCheckCreds : String := "Vérifiez la configuration de vos credentials Google Cloud"

/-- Message prefix of the catch-all of both `detect_labels` (lines 168, 480). -/
def msgCloudErr : String := "Erreur lors de l" ++ ap ++ "analyse avec Google Cloud Vision: "

/-- Diagnosis of `_generate_diagnoses` for an empty detection list (line 373). -/
def msgNothing : String := "Aucun objet automobile reconnu dans l" ++ ap ++ "image"

/-- Brake advisory of `_generate_diagnoses` (line 378). -/
def msgBrake : String := "Vérifiez l" ++ ap ++ "état des plaquettes et des disques de frein"

/-- Tire advisory of `_generate_diagnoses` (line 379). -/
def msgPneu : String := "Inspectez l" ++ ap ++ "usure et la pression des pneus"

/-- Oil advisory of `_generate_diagnoses` (line 380). -/
def msgHuile : String := "Contrôlez le niveau et la qualité de l" ++ ap ++ "huile"

/-- Engine advisory of `_generate_diagnoses` (line 381). -/
def msgMoteur : String := "Examinez l" ++ ap ++ "état général du moteur"

/-- Battery advisory of `_generate_diagnoses` (line 382). -/
def msgBatterie : String := "Vérifiez les connections et la charge de la batterie"

/-- Headlight advisory of `_generate_diagnoses` (line 383). -/
def msgPhare : String := "Assurez-vous que tous les phares fonctionnent correctement"

/-- Corrosion advisory of `_generate_diagnoses` (line 392). -/
def msgCorrosion : String :=
  "Présence de corrosion détectée - vérifiez l" ++ ap ++ "étendue des dommages"

/-- Leak advisory of `_generate_diagnoses` (line 395). -/
def msgFuite : String := "Fuite de liquide détectée - vérifiez le type et la source"

/-- Crack advisory of `_generate_diagnoses` (line 398). -/
def msgFissure : String := "Fissure détectée - inspectez la gravité et l" ++ ap ++ "emplacement"

/-- Generic diagnosis when detections exist but no rule fired (line 402). -/
def msgGeneric : String :=
  "Composants automobiles détectés, mais aucun problème spécifique identifié"

/-- Advisory strings of `_basic_image_analysis` (lines 294-295). -/
def msgBasic1 : String := "Image analysée avec capacités basiques uniquement"

/-- Second advisory string of `_basic_image_analysis`. -/
def msgBasic2 : String := "Pour une analyse plus précise, veuillez configurer un modèle de détection"

/-- The `anomaly_keywords` list of `_detect_anomalies` (lines 181-191),
verbatim and in order, duplicates included. -/
def anomaly_keywords : List String :=
  ["damage", "damaged", "broken", "crack", "cracked", "dent", "dented",
   "scratch", "scratched", "rust", "rusty", "corrosion", "leak", "leaking",
   "worn", "wear", "tear", "bent", "burnt", "burned", "melted", "flat",
   "accident", "collision", "problem", "issue", "fault", "error", "warning",
   "dommage", "endommagé", "cassé", "fissure", "fissuré", "bosselé", "bosse",
   "rayure", "rayé", "rouille", "rouillé", "corrosion", "fuite", "usé",
   "usure", "déchirure", "plié", "brûlé", "fondu", "dégonflé", "à plat",
   "accident", "collision", "problème", "panne", "défaut", "erreur", "alerte"]

/-- The `car_keywords` list of `_is_car_related` (lines 217-227), verbatim
and in order, duplicates included. -/
def car_keywords : List String :=
  ["car", "automobile", "vehicle", "motor", "engine", "wheel", "tire",
   "brake", "suspension", "transmission", "exhaust", "battery", "headlight",
   "taillight", "windshield", "hood", "trunk", "bumper", "door", "dashboard",
   "steering", "airbag", "seat", "seatbelt", "mirror", "wiper", "radiator",
   "voiture", "automobile", "véhicule", "moteur", "roue", "pneu", "frein",
   "suspension", "transmission", "échappement", "batterie", "phare", "feu",
   "pare-brise", "capot", "coffre", "pare-choc", "portière", "tableau de bord",
   "volant", "airbag", "siège", "ceinture", "rétroviseur", "essuie-glace", "radiateur"]

/-- The `anomaly_keywords` list of the standalone `detect_labels`
(lines 435-441). -/
def standalone_anomaly_keywords : List String :=
  ["damage", "broken", "crack", "dent", "scratch", "rust", "leak",
   "worn", "bent", "burnt", "accident", "problem", "issue", "fault",
   "dommage", "cassé", "fissure", "bosse", "rayure", "rouille", "fuite",
   "usé", "plié", "brûlé", "accident", "problème", "panne", "défaut"]

/-- The `car_keywords` list of the standalone `detect_labels` (lines 454-460). -/
def standalone_car_keywords : List String :=
  ["car", "vehicle", "motor", "engine", "wheel", "tire", "brake",
   "transmission", "exhaust", "battery", "headlight", "bumper",
   "voiture", "véhicule", "moteur", "roue", "pneu", "frein",
   "transmission", "échappement", "batterie", "phare", "pare-choc"]

/-- An anomaly entry `{"type": keyword, "label": label, "score": score}`
(lines 198-202); the `type` field is called `typ` because `type` is a Lean
keyword. -/
structure Anomaly where
  typ : String
  label : String
  score : ℚ
deriving DecidableEq

/-- An in-memory image (`numpy.ndarray`). The OpenCV primitives the basic
analyzer applies to it (Canny + findContours contour areas, per-color-range
`countNonZero` pixel counts) are deterministic functions of the pixels, so
they are embedded as fields of the image value itself. -/
structure Image where
  height : Nat
  width : Nat
  contourAreas : List ℚ
  colorCount : String → Nat

/-- One row `detections[0, 0, i]` of the DNN output (lines 320-329): the raw
class-id float at index 1, the confidence at index 2, and the four
normalized box coordinates at indices 3-6. -/
structure DetRow where
  idRaw : ℚ
  confidence : ℚ
  bx1 : ℚ
  by1 : ℚ
  bx2 : ℚ
  by2 : ℚ
deriving DecidableEq

/-- The engine state relevant to the embedded methods (constructor lines
21-57): `isInit` is `self.initialized`, `net` is `self.net` (the forward
pass of the loaded DNN, possibly raising), `labels` is `self.labels`,
and the two remaining fields are the threshold and the Vision-client flag. -/
structure ImageRecognitionEngine where
  isInit : Bool
  net : Option (Image → Except String (List DetRow))
  labels : List (Int × String)
  confidence_threshold : ℚ
  vision_api_available : Bool

/-- Embedding of `_detect_anomalies` (lines 170-205): for each keyword, for
each `(label, score)` item, emit an entry when `keyword in label.lower()`;
then Python `sorted(..., key=score, reverse=True)`, which is the stable
descending sort `List.insertionSort` with relation `b.score ≤ a.score`. -/
def ImageRecognitionEngine.detect_anomalies (labels : List (String × ℚ)) : List Anomaly :=
  let anomalies := anomaly_keywords.flatMap fun keyword =>
    labels.filterMap fun l =>
      if strHasSub keyword (pyLower l.1) then some ⟨keyword, l.1, l.2⟩ else none
  List.insertionSort (fun a b => b.score ≤ a.score) anomalies

/-- Embedding of `_is_car_related` (lines 207-235): the doubly nested loop
with an early `return True` is `List.any` twice. -/
def ImageRecognitionEngine.is_car_related (labels : List (String × ℚ)) : Bool :=
  car_keywords.any fun keyword =>
    labels.any fun l => strHasSub keyword (pyLower l.1)

/-- The `component_diagnoses` dict of `_generate_diagnoses` (lines 377-384),
in insertion order. -/
def component_diagnoses : List (String × String) :=
  [("frein", msgBrake), ("pneu", msgPneu), ("huile", msgHuile),
   ("moteur", msgMoteur), ("batterie", msgBatterie), ("phare", msgPhare)]

/-- A detection emitted by `_model_based_analysis` (lines 331-340); the
`class` field is called `className` because `class` is a Lean keyword. -/
structure Detection where
  className : String
  confidence : ℚ
  x_min : Int
  y_min : Int
  x_max : Int
  y_max : Int
deriving DecidableEq

/-- Embedding of `_generate_diagnoses` (lines 357-404). The successive
`diagnoses.append` mutations become successive list appends; Python
`"x" in detected_classes` on a list is exact membership, i.e. `contains`. -/
def ImageRecognitionEngine.generate_diagnoses (detections : List Detection) : List String :=
  let detected_classes := detections.map fun d => pyLower d.className
  if detected_classes.isEmpty then [msgNothing]
  else
    let d1 := component_diagnoses.foldl
      (fun acc cd =>
        if detected_classes.any (fun cls => strHasSub cd.1 cls) then acc ++ [cd.2] else acc)
      []
    let d2 := if detected_classes.contains "rouille" || detected_classes.contains "corrosion"
      then d1 ++ [msgCorrosion] else d1
    let d3 := if detected_classes.contains "fuite" || detected_classes.contains "liquide"
      then d2 ++ [msgFuite] else d2
    let d4 := if detected_classes.contains "fissure" then d3 ++ [msgFissure] else d3
    if d4.isEmpty then [msgGeneric] else d4

/-- Embedding of Python dict insertion: an existing key keeps its position
and gets the new value, a new key is appended. -/
def dictInsert (m : List (String × ℚ)) (k : String) (v : ℚ) : List (String × ℚ) :=
  if m.any (fun p => p.1 == k) then m.map (fun p => if p.1 == k then (k, v) else p)
  else m ++ [(k, v)]

/-- Embedding of the dict comprehension
`{label.description.lower(): float(label.score) for label in labels}`
(lines 139 and 432): keys are the lower-cased descriptions, later duplicates
overwrite earlier values. -/
def buildLabelMap (annotations : List (String × ℚ)) : List (String × ℚ) :=
  annotations.foldl (fun m a => dictInsert m (pyLower a.1) a.2) []

/-- Lookup in an embedded dict. -/
def dlookup (m : List (String × ℚ)) (k : String) : Option ℚ :=
  (m.find? (fun p => p.1 == k)).map (fun p => p.2)

/-- Truncation toward zero: Python `int(...)` and numpy `astype('int')` on
the float values appearing here. With the reduced numerator and positive
denominator of `ℚ`, t-division of the numerator by the denominator is
exactly truncation toward zero. -/
def truncQ (q : ℚ) : Int := q.num.tdiv (q.den : Int)

/-- Result of `_basic_image_analysis` (lines 278-297). -/
structure BasicResult where
  width : Nat
  height : Nat
  contours_total : Nat
  contours_significant : Nat
  dominant : String
  distribution : List (String × ℚ)
  possible_diagnoses : List String
deriving DecidableEq

/-- Result of `_model_based_analysis` (lines 345-355). -/
structure ModelResult where
  width : Nat
  height : Nat
  detections : List Detection
  detected_count : Nat
  possible_diagnoses : List String
deriving DecidableEq

/-- The dict returned by `analyze_image`: either an `{error: ...}` dict, or
one of the two success dicts (tagged `type: basic_analysis` resp.
`type: model_based_analysis`, both with `success: True`). -/
inductive AResult where
  | err (msg : String)
  | basic (b : BasicResult)
  | model (m : ModelResult)
deriving DecidableEq

/-- The `success: True` field: present on both non-error variants. -/
def AResult.isSuccess : AResult → Bool
  | AResult.err _ => false
  | _ => true

/-- The `type` field of an `analyze_image` result dict. -/
def AResult.typeTag : AResult → Option String
  | AResult.err _ => none
  | AResult.basic _ => some "basic_analysis"
  | AResult.model _ => some "model_based_analysis"

/-- External effects an operation may attempt. -/
inductive Effect where
  | inference
  | readFile
  | apiCall
deriving DecidableEq

/-- Embedding of `_basic_image_analysis` (lines 237-297). The OpenCV results
are read off the `Image` oracle fields; `contourArea(c) > 500` filters the
significant contours; the four color fractions are `countNonZero/(h*w)*100`;
Python `max(..., key=...)` keeps the first maximum; the dominant color is
reported only above 5 percent. A zero-pixel image raises `ZeroDivisionError`
in Python (integer `h*w` is 0), embedded as `Except.error`. -/
def ImageRecognitionEngine.basic_image_analysis (img : Image) : Except String BasicResult :=
  if img.height * img.width == 0 then Except.error "division by zero"
  else
    let frac : String → ℚ := fun n =>
      ((img.colorCount n : ℚ) / ((img.height : ℚ) * (img.width : ℚ))) * 100
    let color_detection :=
      [("rouge", frac "rouge"), ("jaune", frac "jaune"),
       ("vert", frac "vert"), ("bleu", frac "bleu")]
    let dominant :=
      [("jaune", frac "jaune"), ("vert", frac "vert"), ("bleu", frac "bleu")].foldl
        (fun best p => if best.2 < p.2 then p else best) ("rouge", frac "rouge")
    Except.ok
      { width := img.width
        height := img.height
        contours_total := img.contourAreas.length
        contours_significant := (img.contourAreas.filter (fun c => 500 < c)).length
        dominant := if 5 < dominant.2 then dominant.1 else "indéterminé"
        distribution := color_detection
        possible_diagnoses := [msgBasic1, msgBasic2] }

/-- One detection of `_model_based_analysis` (lines 324-340): truncate the
class id, look it up in the label table with fallback `"Classe {id}"`, and
scale the normalized box by `[width, height, width, height]` before the
`astype('int')` truncation. -/
def mkDetection (e : ImageRecognitionEngine) (w h : Nat) (row : DetRow) : Detection :=
  let class_id : Int := truncQ row.idRaw
  let class_name :=
    match e.labels.find? (fun p => p.1 == class_id) with
    | some p => p.2
    | none => "Classe " ++ toString class_id
  { className := class_name
    confidence := row.confidence
    x_min := truncQ (row.bx1 * (w : ℚ))
    y_min := truncQ (row.by1 * (h : ℚ))
    x_max := truncQ (row.bx2 * (w : ℚ))
    y_max := truncQ (row.by2 * (h : ℚ)) }

/-- Embedding of `_model_based_analysis` (lines 299-355): run the forward
pass `nf` (which may raise), keep exactly the rows whose confidence is
strictly above `self.confidence_threshold`, in network output order. -/
def ImageRecognitionEngine.model_based_analysis (e : ImageRecognitionEngine)
    (nf : Image → Except String (List DetRow)) (img : Image) : Except String AResult :=
  match nf img with
  | Except.error s => Except.error s
  | Except.ok rows =>
    let results := rows.filterMap fun row =>
      if e.confidence_threshold < row.confidence
      then some (mkDetection e img.width img.height row) else none
    Except.ok (AResult.model
      { width := img.width
        height := img.height
        detections := results
        detected_count := results.length
        possible_diagnoses := ImageRecognitionEngine.generate_diagnoses results })

/-- The dispatch of `analyze_image` lines 102-109 once an image is in hand:
basic path when `self.net is None`, else model path; the surrounding
`try/except` turns a raised exception into the `{error: ...}` dict. -/
def ImageRecognitionEngine.dispatch_analysis (e : ImageRecognitionEngine) (img : Image) :
    AResult × List Effect :=
  match e.net with
  | none =>
    match ImageRecognitionEngine.basic_image_analysis img with
    | Except.ok b => (AResult.basic b, [])
    | Except.error s => (AResult.err (msgAnalysisErr ++ s), [])
  | some nf =>
    match e.model_based_analysis nf img with
    | Except.ok r => (r, [Effect.inference])
    | Except.error s => (AResult.err (msgAnalysisErr ++ s), [Effect.inference])

/-- The decoding environment of `analyze_image`: `cv2.imread`, which yields
`None` when the path cannot be decoded into a valid image. -/
structure CvEnv where
  imread : String → Option Image

/-- Embedding of `analyze_image` (lines 77-109). Python `if image_path:` is
truthiness, so `None` and the empty string both fall through to the
`image_array is not None` check; with no image at all the result is the
`msgNoImage` error dict. -/
def ImageRecognitionEngine.analyze_image (e : ImageRecognitionEngine) (env : CvEnv)
    (image_path : Option String) (image_array : Option Image) : AResult × List Effect :=
  if e.isInit = false then (AResult.err msgNotInit, [])
  else
    match image_path with
    | some p =>
      if p == "" then
        match image_array with
        | some img => e.dispatch_analysis img
        | none => (AResult.err msgNoImage, [])
      else
        match env.imread p with
        | none => (AResult.err (msgCantLoad ++ p), [])
        | some img => e.dispatch_analysis img
    | none =>
      match image_array with
      | some img => e.dispatch_analysis img
      | none => (AResult.err msgNoImage, [])

/-- Python truthiness of the `image_path` argument. -/
def truthy : Option String → Bool
  | none => false
  | some p => !(p == "")

/-- The response of one `label_detection` call: `(description, score)`
annotations plus `response.error.message` (empty string when absent). -/
structure ApiResp where
  annotations : List (String × ℚ)
  errMsg : String

/-- The external world of the cloud path: client construction (the
standalone function builds its own client, which may raise), `io.open` +
`read` on the path, and the API round trip; each may raise. -/
structure CloudEnv where
  mkClient : Except String Unit
  readFile : String → Except String (List Nat)
  api : List Nat → Except String ApiResp

/-- The dict returned by the engine method `detect_labels`: the
`{error, message}` dict, or the success dict of lines 152-159 (`labels`,
`anomalies_detected`, `anomalies`, `sorted_labels`, `car_related`, plus the
optional `warning` of line 163). -/
inductive DLResult where
  | err (error : String) (message : Option String)
  | ok (labels : List (String × ℚ)) (anomalies_detected : Bool) (anomalies : List Anomaly)
      (sorted_labels : List (String × ℚ)) (car_related : Bool) (warning : Option String)
deriving DecidableEq

/-- The `success: True` field of a `detect_labels` result. -/
def DLResult.isSuccess : DLResult → Bool
  | DLResult.err _ _ => false
  | DLResult.ok _ _ _ _ _ _ => true

/-- Embedding of the engine method `detect_labels` (lines 111-168): bail out
with the service-unavailable dict when the Vision client never initialized;
otherwise read the file, call the API, build the label map, derive
anomalies (`anomalies_detected` is `len(anomalies) > 0`), the
score-descending `sorted_labels`, car-relatedness, and surface a non-empty
`response.error.message` as a `warning`. -/
def ImageRecognitionEngine.detect_labels (e : ImageRecognitionEngine) (env : CloudEnv)
    (image_path : String) : DLResult × List Effect :=
  if e.vision_api_available = false then
    (DLResult.err msgApiUnavail (some msgCheckCreds), [])
  else
    match env.readFile image_path with
    | Except.error ex => (DLResult.err (msgCloudErr ++ ex) none, [Effect.readFile])
    | Except.ok content =>
      match env.api content with
      | Except.error ex => (DLResult.err (msgCloudErr ++ ex) none, [Effect.readFile, Effect.apiCall])
      | Except.ok resp =>
        let label_results := buildLabelMap resp.annotations
        let anomalies := ImageRecognitionEngine.detect_anomalies label_results
        let sorted_labels := List.insertionSort (fun a b => b.2 ≤ a.2) label_results
        (DLResult.ok label_results (decide (0 < anomalies.length)) anomalies sorted_labels
          (ImageRecognitionEngine.is_car_related label_results)
          (if resp.errMsg == "" then none else some ("API Error: " ++ resp.errMsg)),
         [Effect.readFile, Effect.apiCall])

/-- The dict returned by the standalone `detect_labels` (lines 471-477):
no `sorted_labels` and no `warning` field there. -/
inductive SResult where
  | err (error : String)
  | ok (labels : List (String × ℚ)) (anomalies_detected : Bool) (anomalies : List Anomaly)
      (car_related : Bool)
deriving DecidableEq

/-- Embedding of the standalone `detect_labels` (lines 407-480): constructs
its own Vision client inside the `try`, uses its own shorter keyword lists,
does not sort the anomalies, and `anomalies_detected` is again
`len(anomalies) > 0`. -/
def detect_labels (env : CloudEnv) (image_path : String) : SResult :=
  match env.mkClient with
  | Except.error ex => SResult.err (msgCloudErr ++ ex)
  | Except.ok _ =>
    match env.readFile image_path with
    | Except.error ex => SResult.err (msgCloudErr ++ ex)
    | Except.ok content =>
      match env.api content with
      | Except.error ex => SResult.err (msgCloudErr ++ ex)
      | Except.ok resp =>
        let results := buildLabelMap resp.annotations
        let anomalies := standalone_anomaly_keywords.flatMap fun keyword =>
          results.filterMap fun l =>
            if strHasSub keyword (pyLower l.1) then some (⟨keyword, l.1, l.2⟩ : Anomaly) else none
        let car_related := standalone_car_keywords.any fun keyword =>
          results.any fun l => strHasSub keyword (pyLower l.1)
        SResult.ok results (decide (0 < anomalies.length)) anomalies car_related

/- Helper lemmas. -/

/-- The character data of an appended string is the appended data. -/
theorem strData_append (x y : String) : (x ++ y).data = x.data ++ y.data := by
  cases x; cases y; rfl

/-- Appending on the right does not change a non-empty head. -/
theorem head?_append_some {α : Type} {l l' : List α} {c : α} (h : l.head? = some c) :
    (l ++ l').head? = some c := by
  cases l with
  | nil => simp at h
  | cons a t => simpa using h

/-- Two appended strings with distinct head characters differ. -/
theorem append_ne_append_of_headChar (x y z w : String) (c d : Char)
    (hx : x.data.head? = some c) (hz : z.data.head? = some d) (hcd : c ≠ d) :
    x ++ y ≠ z ++ w := by
  intro h
  have h1 : (x ++ y).data.head? = some c := by
    rw [strData_append]; exact head?_append_some hx
  have h2 : (z ++ w).data.head? = some d := by
    rw [strData_append]; exact head?_append_some hz
  rw [h, h2] at h1
  exact hcd (Option.some.inj h1).symm

/-- An appended string with head character distinct from a string's head
character differs from it. -/
theorem append_ne_of_headChar (x y z : String) (c d : Char)
    (hx : x.data.head? = some c) (hz : z.data.head? = some d) (hcd : c ≠ d) :
    x ++ y ≠ z := by
  intro h
  have h1 : (x ++ y).data.head? = some c := by
    rw [strData_append]; exact head?_append_some hx
  rw [h, hz] at h1
  exact hcd (Option.some.inj h1).symm

/-- Lookup after overwriting every entry keyed `k2`. -/
theorem dlookup_overwrite (m : List (String × ℚ)) (k2 : String) (v : ℚ) (k : String) :
    dlookup (m.map fun q => if q.1 == k2 then (k2, v) else q) k =
      if k = k2 then (dlookup m k).map (fun _ => v) else dlookup m k := by
  induction m with
  | nil => by_cases h : k = k2 <;> simp [dlookup, h]
  | cons q t ih =>
    by_cases hq : q.1 = k2
    · by_cases hk : k = k2
      · subst hk
        simp [dlookup, List.find?, hq, beq_iff_eq]
      · simp only [List.map_cons, if_pos (beq_iff_eq.mpr hq)]
        have h1 : (k2 == k) = false := by simp [beq_iff_eq]; exact fun h => hk h.symm
        have h2 : (q.1 == k) = false := by simp [beq_iff_eq, hq]; exact fun h => hk h.symm
        simp only [dlookup, List.find?, h1, h2] at ih ⊢
        simpa [dlookup, if_neg hk] using ih
    · have hq' : (q.1 == k2) = false := by simp [beq_iff_eq, hq]
      by_cases hqk : q.1 = k
      · have : (q.1 == k) = true := beq_iff_eq.mpr hqk
        have hk2 : k ≠ k2 := fun h => hq (hqk.trans h)
        simp [dlookup, List.find?, hq', this, hk2]
      · have hqk' : (q.1 == k) = false := by simp [beq_iff_eq, hqk]
        simp only [List.map_cons, if_neg (by simp [beq_iff_eq, hq] : ¬ (q.1 == k2) = true)]
        simp only [dlookup, List.find?, hqk'] at ih ⊢
        exact ih

/-- Lookup after appending a fresh entry. -/
theorem dlookup_append_single (m : List (String × ℚ)) (k2 : String) (v : ℚ) (k : String) :
    dlookup (m ++ [(k2, v)]) k =
      match dlookup m k with
      | some w => some w
      | none => if k = k2 then some v else none := by
  induction m with
  | nil =>
    by_cases h : k = k2
    · simp [dlookup, List.find?, beq_iff_eq.mpr h.symm, h]
    · have h2 : (k2 == k) = false := by
        simp only [beq_eq_false_iff_ne, ne_eq]
        exact fun hh => h hh.symm
      simp [dlookup, List.find?, h2, h]
  | cons q t ih =>
    by_cases hqk : q.1 = k
    · simp [dlookup, List.find?, beq_iff_eq.mpr hqk]
    · have hqk' : (q.1 == k) = false := by simp [beq_iff_eq, hqk]
      simp only [dlookup, List.cons_append, List.find?, hqk'] at ih ⊢
      exact ih

/-- A present key is found. -/
theorem dlookup_isSome_of_any (m : List (String × ℚ)) (k : String)
    (h : m.any (fun q => q.1 == k) = true) : ∃ w, dlookup m k = some w := by
  induction m with
  | nil => simp at h
  | cons q t ih =>
    by_cases hq : q.1 = k
    · exact ⟨q.2, by simp [dlookup, List.find?, beq_iff_eq.mpr hq]⟩
    · have hq' : (q.1 == k) = false := by simp [beq_iff_eq, hq]
      simp only [List.any_cons, hq', Bool.false_or] at h
      obtain ⟨w, hw⟩ := ih h
      exact ⟨w, by simpa [dlookup, List.find?, hq'] using hw⟩

/-- Lookup through a Python dict insertion. -/
theorem dlookup_dictInsert (m : List (String × ℚ)) (k2 : String) (v : ℚ) (k : String) :
    dlookup (dictInsert m k2 v) k = if k = k2 then some v else dlookup m k := by
  unfold dictInsert
  by_cases hmem : m.any (fun p => p.1 == k2) = true
  · rw [if_pos hmem, dlookup_overwrite]
    by_cases hk : k = k2
    · subst hk
      obtain ⟨w, hw⟩ := dlookup_isSome_of_any m k hmem
      simp [hw]
    · simp [hk]
  · rw [if_neg hmem, dlookup_append_single]
    by_cases hk : k = k2
    · subst hk
      cases hd : dlookup m k with
      | none => simp
      | some w =>
        exfalso
        apply hmem
        unfold dlookup at hd
        cases hf : m.find? (fun p => p.1 == k) with
        | none => rw [hf] at hd; simp at hd
        | some q =>
          have hq := List.find?_some hf
          have hqm := List.mem_of_find?_eq_some hf
          exact List.any_eq_true.mpr ⟨q, hqm, hq⟩
    · cases hd : dlookup m k <;> simp [hk]

/-- Splitting `find?` over an append. -/
theorem find?_append_aux {α : Type} (p : α → Bool) :
    ∀ (l1 l2 : List α), (l1 ++ l2).find? p =
      match l1.find? p with
      | some x => some x
      | none => l2.find? p := by
  intro l1 l2
  induction l1 with
  | nil => simp
  | cons a t ih =>
    by_cases ha : p a = true
    · simp [List.find?, ha]
    · have ha' : p a = false := by simpa using ha
      simp only [List.cons_append, List.find?, ha']
      exact ih

/-- Lookup in the fold of `buildLabelMap`, generalized over the accumulator:
the last annotation whose lower-cased description is `k` wins. -/
theorem dlookup_foldl (ann : List (String × ℚ)) (m : List (String × ℚ)) (k : String) :
    dlookup (ann.foldl (fun m a => dictInsert m (pyLower a.1) a.2) m) k =
      match ann.reverse.find? (fun a => pyLower a.1 == k) with
      | some a => some a.2
      | none => dlookup m k := by
  induction ann generalizing m with
  | nil => simp
  | cons a t ih =>
    simp only [List.foldl_cons, List.reverse_cons]
    rw [ih, find?_append_aux]
    cases hf : t.reverse.find? (fun a => pyLower a.1 == k) with
    | some b => simp
    | none =>
      simp only [List.find?]
      by_cases hak : pyLower a.1 = k
      · rw [beq_iff_eq.mpr hak, dlookup_dictInsert, if_pos hak.symm]
      · have hak' : (pyLower a.1 == k) = false := by
          simpa using hak
        rw [hak', dlookup_dictInsert, if_neg (fun h => hak h.symm)]

/-- Every entry of a dict insertion is the inserted pair or an old entry. -/
theorem mem_dictInsert (q : String × ℚ) (m : List (String × ℚ)) (k2 : String) (v : ℚ)
    (h : q ∈ dictInsert m k2 v) : q = (k2, v) ∨ q ∈ m := by
  unfold dictInsert at h
  by_cases hmem : m.any (fun p => p.1 == k2) = true
  · rw [if_pos hmem] at h
    obtain ⟨p, hp, hq⟩ := List.mem_map.mp h
    by_cases hpk : (p.1 == k2) = true
    · rw [if_pos hpk] at hq; exact Or.inl hq.symm
    · rw [if_neg (by simpa using hpk)] at hq; exact Or.inr (hq ▸ hp)
  · rw [if_neg hmem] at h
    rcases List.mem_append.mp h with hm | hs
    · exact Or.inr hm
    · exact Or.inl (List.mem_singleton.mp hs)

/-- Every key of the fold of `buildLabelMap` is a lower-cased description
(or was already in the accumulator). -/
theorem keys_foldl (ann : List (String × ℚ)) (m : List (String × ℚ)) (q : String × ℚ)
    (h : q ∈ ann.foldl (fun m a => dictInsert m (pyLower a.1) a.2) m) :
    q ∈ m ∨ ∃ a ∈ ann, q.1 = pyLower a.1 := by
  induction ann generalizing m with
  | nil => exact Or.inl h
  | cons a t ih =>
    simp only [List.foldl_cons] at h
    rcases ih (dictInsert m (pyLower a.1) a.2) h with hm | ⟨b, hb, hq⟩
    · rcases mem_dictInsert q m (pyLower a.1) a.2 hm with he | hm2
      · exact Or.inr ⟨a, List.mem_cons_self a t, by rw [he]⟩
      · exact Or.inl hm2
    · exact Or.inr ⟨b, List.mem_cons_of_mem a hb, hq⟩

/-- The descending-score relation used by the anomaly sort is total. -/
instance : IsTotal Anomaly (fun a b => b.score ≤ a.score) :=
  ⟨fun a b => le_total b.score a.score⟩

/-- The descending-score relation used by the anomaly sort is transitive. -/
instance : IsTrans Anomaly (fun a b => b.score ≤ a.score) :=
  ⟨fun _ _ _ hab hbc => le_trans hbc hab⟩

/-- The keyword scan for one lower-case keyword, rewritten as a
filter-then-map over the pairs with that keyword. -/
theorem per_keyword_collect (k : String) (hk : pyLower k = k) (labels : List (String × ℚ)) :
    (labels.filterMap fun l =>
        if strHasSub k (pyLower l.1) then some (⟨k, l.1, l.2⟩ : Anomaly) else none) =
      ((labels.map (Prod.mk k)).filter fun kl => strHasSub (pyLower kl.1) (pyLower kl.2.1)).map
        (fun kl => (⟨kl.1, kl.2.1, kl.2.2⟩ : Anomaly)) := by
  induction labels with
  | nil => rfl
  | cons l t ih =>
    by_cases hc : strHasSub k (pyLower l.1) = true
    · simp only [List.filterMap_cons, List.map_cons, List.filter_cons, hk, hc, if_pos]
      rw [ih]
    · have hc' : strHasSub k (pyLower l.1) = false := by simpa using hc
      simp only [List.filterMap_cons, List.map_cons, List.filter_cons, hk, hc']
      simpa using ih

/-- The whole nested keyword scan, rewritten as a filter-then-map over the
product of keywords and labels. -/
theorem collect_eq (ks : List String) (hks : ∀ k ∈ ks, pyLower k = k)
    (labels : List (String × ℚ)) :
    (ks.flatMap fun keyword =>
        labels.filterMap fun l =>
          if strHasSub keyword (pyLower l.1) then some (⟨keyword, l.1, l.2⟩ : Anomaly) else none) =
      ((ks.product labels).filter fun kl => strHasSub (pyLower kl.1) (pyLower kl.2.1)).map
        (fun kl => (⟨kl.1, kl.2.1, kl.2.2⟩ : Anomaly)) := by
  induction ks with
  | nil => rfl
  | cons k t ih =>
    have hk : pyLower k = k := hks k (List.mem_cons_self k t)
    have ht : ∀ k2 ∈ t, pyLower k2 = k2 := fun k2 h2 => hks k2 (List.mem_cons_of_mem k h2)
    have hprod : (k :: t).product labels = labels.map (Prod.mk k) ++ t.product labels := by
      simp [List.product, List.flatMap_cons]
    rw [List.flatMap_cons, per_keyword_collect k hk labels, ih ht, hprod,
      List.filter_append, List.map_append]

/-- Folding conditional appends only ever grows the accumulator. -/
theorem mem_foldl_cond_append {α : Type} (f : α → Bool) (g : α → String) :
    ∀ (l : List α) (acc : List String) (x : String), x ∈ acc →
      x ∈ l.foldl (fun acc cd => if f cd then acc ++ [g cd] else acc) acc := by
  intro l
  induction l with
  | nil => intro acc x hx; exact hx
  | cons a t ih =>
    intro acc x hx
    simp only [List.foldl_cons]
    apply ih
    by_cases h : f a = true
    · rw [if_pos h]; exact List.mem_append_left _ hx
    · rw [if_neg h]; exact hx

/-- The input-error results of `analyze_image`: the "no image supplied"
dict, or the "cannot load the image at this path" dict. -/
def IsInputError (image_path : Option String) (r : AResult) : Prop :=
  r = AResult.err msgNoImage ∨
    ∃ s, image_path = some s ∧ r = AResult.err (msgCantLoad ++ s)

/-- Head characters of the three `analyze_image` error messages. -/
theorem msg_heads :
    msgAnalysisErr.data.head? = some 'E' ∧ msgNoImage.data.head? = some 'A' ∧
      msgCantLoad.data.head? = some 'I' := by
  refine ⟨?_, ?_, ?_⟩ <;> decide

/-- A catch-all analysis error is never one of the two input-error dicts. -/
theorem not_inputError_analysisErr (p : Option String) (s : String) :
    ¬ IsInputError p (AResult.err (msgAnalysisErr ++ s)) := by
  rintro (h | ⟨s2, hp, h⟩)
  · exact append_ne_of_headChar msgAnalysisErr s msgNoImage 'E' 'A'
      msg_heads.1 msg_heads.2.1 (by decide) (AResult.err.inj h)
  · exact append_ne_append_of_headChar msgAnalysisErr s msgCantLoad s2 'E' 'I'
      msg_heads.1 msg_heads.2.2 (by decide) (AResult.err.inj h)

/-- The three possible shapes of the dispatch tail of `analyze_image`. -/
theorem dispatch_cases (e : ImageRecognitionEngine) (img : Image) :
    (∃ b, e.dispatch_analysis img = (AResult.basic b, [])) ∨
    (∃ m, e.dispatch_analysis img = (AResult.model m, [Effect.inference])) ∨
    (∃ s, (e.dispatch_analysis img).1 = AResult.err (msgAnalysisErr ++ s)) := by
  unfold ImageRecognitionEngine.dispatch_analysis
  cases e.net with
  | none =>
    cases ImageRecognitionEngine.basic_image_analysis img with
    | ok b => exact Or.inl ⟨b, rfl⟩
    | error s => exact Or.inr (Or.inr ⟨s, rfl⟩)
  | some nf =>
    dsimp only
    unfold ImageRecognitionEngine.model_based_analysis
    cases nf img with
    | error s => exact Or.inr (Or.inr ⟨s, rfl⟩)
    | ok rows => exact Or.inr (Or.inl ⟨_, rfl⟩)

/-- With no local model the dispatch tail attempts no effect at all. -/
theorem dispatch_none_effects (e : ImageRecognitionEngine) (img : Image) (h : e.net = none) :
    (e.dispatch_analysis img).2 = [] := by
  unfold ImageRecognitionEngine.dispatch_analysis
  rw [h]
  cases ImageRecognitionEngine.basic_image_analysis img <;> rfl

/-- With no local model a successful dispatch is tagged `basic_analysis`. -/
theorem dispatch_none_type (e : ImageRecognitionEngine) (img : Image) (h : e.net = none) :
    (e.dispatch_analysis img).1.isSuccess = true →
      (e.dispatch_analysis img).1.typeTag = some "basic_analysis" := by
  unfold ImageRecognitionEngine.dispatch_analysis
  rw [h]
  cases ImageRecognitionEngine.basic_image_analysis img with
  | ok b => intro _; rfl
  | error s => intro hs; exact absurd hs (by simp [AResult.isSuccess])

/-- The dispatch tail of `analyze_image` (an image is already in hand) never
yields an input-error dict. -/
theorem not_inputError_dispatch (e : ImageRecognitionEngine) (img : Image) (p : Option String) :
    ¬ IsInputError p (e.dispatch_analysis img).1 := by
  rcases dispatch_cases e img with ⟨b, hb⟩ | ⟨m, hm⟩ | ⟨s, hs⟩
  · rw [hb]
    intro h
    unfold IsInputError at h
    rcases h with h | ⟨s2, hp, h⟩ <;> simp at h
  · rw [hm]
    intro h
    unfold IsInputError at h
    rcases h with h | ⟨s2, hp, h⟩ <;> simp at h
  · rw [hs]
    exact not_inputError_analysisErr p s

/-- Decidable equality on `Except` results, for concrete evaluations. -/
instance : DecidableEq (Except String AResult) :=
  fun a b =>
    match a, b with
    | Except.ok x, Except.ok y =>
      if h : x = y then Decidable.isTrue (by rw [h]) else Decidable.isFalse (by simp [h])
    | Except.error x, Except.error y =>
      if h : x = y then Decidable.isTrue (by rw [h]) else Decidable.isFalse (by simp [h])
    | Except.ok _, Except.error _ => Decidable.isFalse (by simp)
    | Except.error _, Except.ok _ => Decidable.isFalse (by simp)

/- Claim theorems. -/

/-- C1: for every configured confidence threshold and every model inference
output, the model-based analysis path returns only detections whose
confidence is strictly greater than the threshold; no detection with
confidence at or below it ever appears in the returned detections list. -/
theorem model_analysis_confidence_above_threshold :
    ∀ (e : ImageRecognitionEngine) (nf : Image → Except String (List DetRow)) (img : Image)
      (m : ModelResult),
      e.model_based_analysis nf img = Except.ok (AResult.model m) →
      ∀ d ∈ m.detections, e.confidence_threshold < d.confidence := by
  intro e nf img m h d hd
  unfold ImageRecognitionEngine.model_based_analysis at h
  cases hnf : nf img with
  | error s => rw [hnf] at h; exact absurd h (by simp)
  | ok rows =>
    rw [hnf] at h
    have h2 := AResult.model.inj (Except.ok.inj h)
    rw [← h2] at hd
    dsimp only at hd
    obtain ⟨row, hrow, hif⟩ := List.mem_filterMap.mp hd
    by_cases hc : e.confidence_threshold < row.confidence
    · rw [if_pos hc] at hif
      rw [← Option.some.inj hif]
      exact hc
    · rw [if_neg hc] at hif
      exact absurd hif (by simp)

/-- C1 witness: at threshold 0 and one inference row of confidence 1, the
kept detection indeed has confidence above the threshold. -/
theorem model_analysis_confidence_above_threshold_witness :
    (0 : ℚ) < 1 :=
  model_analysis_confidence_above_threshold ⟨true, none, [], (0:ℚ), false⟩
    (fun _ => Except.ok [⟨0, (1:ℚ), 0, 0, 0, 0⟩]) ⟨1, 1, [], fun _ => 0⟩
    { width := 1, height := 1,
      detections := [mkDetection ⟨true, none, [], (0:ℚ), false⟩ 1 1 ⟨0, (1:ℚ), 0, 0, 0, 0⟩],
      detected_count := 1,
      possible_diagnoses := ImageRecognitionEngine.generate_diagnoses
        [mkDetection ⟨true, none, [], (0:ℚ), false⟩ 1 1 ⟨0, (1:ℚ), 0, 0, 0, 0⟩] }
    rfl
    (mkDetection ⟨true, none, [], (0:ℚ), false⟩ 1 1 ⟨0, (1:ℚ), 0, 0, 0, 0⟩)
    (List.mem_singleton.mpr rfl)

/-- C5: whenever the Vision client failed to initialize, every call to the
engine method `detect_labels` returns the error/message dict and attempts
no file read and no API call. -/
theorem detect_labels_unavailable :
    ∀ (e : ImageRecognitionEngine) (env : CloudEnv) (path : String),
      e.vision_api_available = false →
      e.detect_labels env path = (DLResult.err msgApiUnavail (some msgCheckCreds), []) := by
  intro e env path h
  unfold ImageRecognitionEngine.detect_labels
  rw [h, if_pos rfl]

/-- C5 witness: a concrete engine with the flag down returns the service
unavailable dict with an empty effect trace. -/
theorem detect_labels_unavailable_witness :
    ImageRecognitionEngine.detect_labels ⟨true, none, [], (0:ℚ), false⟩
        ⟨Except.ok (), fun _ => Except.error "io", fun _ => Except.error "api"⟩ "img.jpg" =
      (DLResult.err msgApiUnavail (some msgCheckCreds), []) :=
  detect_labels_unavailable _ _ _ rfl

/-- C6: whenever no local model is loaded, `analyze_image` never attempts
model inference, and every successful result is tagged `basic_analysis`. -/
theorem analyze_image_no_model_basic :
    ∀ (e : ImageRecognitionEngine) (env : CvEnv) (p : Option String) (a : Option Image),
      e.net = none →
      Effect.inference ∉ (e.analyze_image env p a).2 ∧
      ((e.analyze_image env p a).1.isSuccess = true →
        (e.analyze_image env p a).1.typeTag = some "basic_analysis") := by
  intro e env p a hnet
  unfold ImageRecognitionEngine.analyze_image
  by_cases hinit : e.isInit = false
  · rw [if_pos hinit]
    exact ⟨by simp, fun hs => absurd hs (by simp [AResult.isSuccess])⟩
  · rw [if_neg hinit]
    cases p with
    | none =>
      dsimp only
      cases a with
      | some img =>
        refine ⟨?_, dispatch_none_type e img hnet⟩
        rw [dispatch_none_effects e img hnet]
        simp
      | none => exact ⟨by simp, fun hs => absurd hs (by simp [AResult.isSuccess])⟩
    | some s =>
      dsimp only
      by_cases hs : (s == "") = true
      · rw [if_pos hs]
        cases a with
        | some img =>
          refine ⟨?_, dispatch_none_type e img hnet⟩
          rw [dispatch_none_effects e img hnet]
          simp
        | none => exact ⟨by simp, fun h2 => absurd h2 (by simp [AResult.isSuccess])⟩
      · rw [if_neg hs]
        cases hi : env.imread s with
        | none => exact ⟨by simp, fun h2 => absurd h2 (by simp [AResult.isSuccess])⟩
        | some img =>
          refine ⟨?_, dispatch_none_type e img hnet⟩
          rw [dispatch_none_effects e img hnet]
          simp

/-- C6 witness: with no model and a supplied in-memory image, the result is
tagged `basic_analysis`. -/
theorem analyze_image_no_model_basic_witness :
    ((⟨true, none, [], (0:ℚ), false⟩ : ImageRecognitionEngine).analyze_image
        ⟨fun _ => none⟩ none (some ⟨2, 2, [], fun _ => 0⟩)).1.typeTag =
      some "basic_analysis" :=
  (analyze_image_no_model_basic _ _ _ _ rfl).2 (by rfl)

/-- C8: both public operations always return a result dict carrying either
data (`success: True`) or an `error` field; in the embedding both are total
functions of engine, environment and input, so no exception can escape. -/
theorem public_ops_total_result :
    (∀ (e : ImageRecognitionEngine) (env : CvEnv) (p : Option String) (a : Option Image),
        (e.analyze_image env p a).1.isSuccess = true ∨
          ∃ m, (e.analyze_image env p a).1 = AResult.err m) ∧
    (∀ (e : ImageRecognitionEngine) (env : CloudEnv) (path : String),
        (e.detect_labels env path).1.isSuccess = true ∨
          ∃ er msg, (e.detect_labels env path).1 = DLResult.err er msg) := by
  constructor
  · intro e env p a
    cases h : (e.analyze_image env p a).1 with
    | err m => exact Or.inr ⟨m, rfl⟩
    | basic b => exact Or.inl rfl
    | model m => exact Or.inl rfl
  · intro e env path
    cases h : (e.detect_labels env path).1 with
    | err er msg => exact Or.inr ⟨er, msg, rfl⟩
    | ok labs ad ans sl cr w => exact Or.inl rfl

/-- C2: `_is_car_related` returns true exactly when some keyword of the
fixed car-keyword list is a case-insensitive substring of some label key;
in particular it is true on the label map with key "car door" and false on
the one with key "flower". -/
theorem is_car_related_iff :
    (∀ labels : List (String × ℚ),
        ImageRecognitionEngine.is_car_related labels = true ↔
          ∃ k ∈ car_keywords, ∃ l ∈ labels, strHasSub (pyLower k) (pyLower l.1) = true) ∧
    ImageRecognitionEngine.is_car_related [("car door", (9:ℚ)/10)] = true ∧
    ImageRecognitionEngine.is_car_related [("flower", (4:ℚ)/5)] = false := by
  have hlow : ∀ k ∈ car_keywords, pyLower k = k := by decide
  refine ⟨?_, by decide, by decide⟩
  intro labels
  unfold ImageRecognitionEngine.is_car_related
  constructor
  · intro h
    obtain ⟨k, hk, hin⟩ := List.any_eq_true.mp h
    obtain ⟨l, hl, hsub⟩ := List.any_eq_true.mp hin
    exact ⟨k, hk, l, hl, by rwa [hlow k hk]⟩
  · rintro ⟨k, hk, l, hl, hsub⟩
    exact List.any_eq_true.mpr
      ⟨k, hk, List.any_eq_true.mpr ⟨l, hl, by rwa [hlow k hk] at hsub⟩⟩

/-- C2 witness: the iff applied to the concrete map with key "car door"
(keyword "car" matches). -/
theorem is_car_related_iff_witness :
    ImageRecognitionEngine.is_car_related [("car door", (9:ℚ)/10)] = true :=
  (is_car_related_iff.1 [("car door", (9:ℚ)/10)]).mpr
    ⟨"car", by decide, ("car door", (9:ℚ)/10), by simp, by decide⟩

/-- The `len(anomalies) > 0` flag agrees with non-emptiness. -/
theorem decide_lengthPos_iff {α : Type} (l : List α) :
    decide (0 < l.length) = true ↔ l ≠ [] := by
  cases l <;> simp

/-- C10: in every successful `detect_labels` result, of the engine method
and of the standalone function alike, `anomalies_detected` is true exactly
when the `anomalies` list of the same result is non-empty. -/
theorem anomalies_detected_iff_nonempty :
    (∀ (e : ImageRecognitionEngine) (env : CloudEnv) (path : String)
        (labs : List (String × ℚ)) (ad : Bool) (ans : List Anomaly)
        (sl : List (String × ℚ)) (cr : Bool) (w : Option String),
        (e.detect_labels env path).1 = DLResult.ok labs ad ans sl cr w →
        (ad = true ↔ ans ≠ [])) ∧
    (∀ (env : CloudEnv) (path : String) (labs : List (String × ℚ)) (ad : Bool)
        (ans : List Anomaly) (cr : Bool),
        detect_labels env path = SResult.ok labs ad ans cr →
        (ad = true ↔ ans ≠ [])) := by
  constructor
  · intro e env path labs ad ans sl cr w h
    unfold ImageRecognitionEngine.detect_labels at h
    by_cases hv : e.vision_api_available = false
    · rw [if_pos hv] at h; simp at h
    · rw [if_neg hv] at h
      cases hr : env.readFile path with
      | error ex => rw [hr] at h; simp at h
      | ok content =>
        rw [hr] at h
        dsimp only at h
        cases ha : env.api content with
        | error ex => rw [ha] at h; simp at h
        | ok resp =>
          rw [ha] at h
          simp only [DLResult.ok.injEq] at h
          obtain ⟨h1, h2, h3, h4, h5, h6⟩ := h
          rw [← h2, ← h3]
          exact decide_lengthPos_iff _
  · intro env path labs ad ans cr h
    unfold detect_labels at h
    cases hc : env.mkClient with
    | error ex => rw [hc] at h; simp at h
    | ok u =>
      rw [hc] at h
      dsimp only at h
      cases hr : env.readFile path with
      | error ex => rw [hr] at h; simp at h
      | ok content =>
        rw [hr] at h
        dsimp only at h
        cases ha : env.api content with
        | error ex => rw [ha] at h; simp at h
        | ok resp =>
          rw [ha] at h
          simp only [SResult.ok.injEq] at h
          obtain ⟨h1, h2, h3, h4⟩ := h
          rw [← h2, ← h3]
          exact decide_lengthPos_iff _

/-- C10 witness: a concrete response with one "rust" label yields a
successful result whose flag agrees with the non-empty anomalies list. -/
theorem anomalies_detected_iff_nonempty_witness :
    (true = true ↔ ([⟨"rust", "rust", (1:ℚ)⟩] : List Anomaly) ≠ []) :=
  anomalies_detected_iff_nonempty.1 ⟨true, none, [], (0:ℚ), true⟩
    ⟨Except.ok (), fun _ => Except.ok [], fun _ => Except.ok ⟨[("rust", (1:ℚ))], ""⟩⟩
    "img.jpg" [("rust", (1:ℚ))] true [⟨"rust", "rust", (1:ℚ)⟩] [("rust", (1:ℚ))] false none
    (by decide)

/-- C9: the label map built from the service response has only lower-cased
descriptions as keys, and the score found under a key is that of the last
response entry whose lower-cased description is that key (last write
wins). -/
theorem buildLabelMap_lower_last_wins :
    ∀ (annotations : List (String × ℚ)) (k : String),
      (∀ q ∈ buildLabelMap annotations, ∃ a ∈ annotations, q.1 = pyLower a.1) ∧
      dlookup (buildLabelMap annotations) k =
        Option.map (fun a => a.2)
          (annotations.reverse.find? (fun a => pyLower a.1 == k)) := by
  intro ann k
  constructor
  · intro q hq
    rcases keys_foldl ann [] q hq with hm | h
    · simp at hm
    · exact h
  · unfold buildLabelMap
    rw [dlookup_foldl]
    cases hf : ann.reverse.find? (fun a => pyLower a.1 == k) with
    | some a => simp
    | none => simp [dlookup]

/-- C9 witness: two annotations colliding on the lower-cased key "rust";
the later score 2 wins. -/
theorem buildLabelMap_lower_last_wins_witness :
    dlookup (buildLabelMap [("Rust", (1:ℚ)), ("RUST", (2:ℚ))]) "rust" = some 2 := by
  rw [(buildLabelMap_lower_last_wins [("Rust", (1:ℚ)), ("RUST", (2:ℚ))] "rust").2]
  decide

/-- Membership is preserved by a conditional append. -/
theorem mem_ite_append (x y : String) (c : Bool) (l : List String) (h : x ∈ l) :
    x ∈ (if c = true then l ++ [y] else l) := by
  by_cases hc : c = true
  · rw [if_pos hc]; exact List.mem_append_left _ h
  · rw [if_neg hc]; exact h

/-- A list with a member survives the final emptiness check. -/
theorem mem_ite_isEmpty (x y : String) (l : List String) (h : x ∈ l) :
    x ∈ (if l.isEmpty = true then [y] else l) := by
  cases l with
  | nil => simp at h
  | cons a t => simpa using h

/-- C4 counterexample: on a detection list containing only class "brake",
`_generate_diagnoses` returns only the generic message, not the brake
advisory: the component table is keyed by the French "frein", and "frein"
is not a substring of "brake". -/
theorem generate_diagnoses_brake_counterexample :
    ImageRecognitionEngine.generate_diagnoses [⟨"brake", (1:ℚ), 0, 0, 100, 100⟩] =
        [msgGeneric] ∧
      msgBrake ∉ ImageRecognitionEngine.generate_diagnoses [⟨"brake", (1:ℚ), 0, 0, 100, 100⟩] := by
  constructor
  · decide
  · decide

/-- C4 (amended): `_generate_diagnoses` on an empty detection list returns
exactly the single "nothing recognized" message, and on a detection list
containing a detection whose lower-cased class name contains "frein" the
returned list includes the brake-pad/disc inspection advisory string. -/
theorem generate_diagnoses_empty_and_frein :
    ImageRecognitionEngine.generate_diagnoses [] = [msgNothing] ∧
    ∀ ds : List Detection,
      (∃ d ∈ ds, strHasSub "frein" (pyLower d.className) = true) →
      msgBrake ∈ ImageRecognitionEngine.generate_diagnoses ds := by
  constructor
  · rfl
  · rintro ds ⟨d, hd, hsub⟩
    unfold ImageRecognitionEngine.generate_diagnoses
    have hne : ((ds.map fun d2 => pyLower d2.className).isEmpty = true) → False := by
      cases hds : ds with
      | nil => rw [hds] at hd; simp at hd
      | cons a t => simp
    rw [if_neg hne]
    dsimp only
    have hany : ((ds.map fun d2 => pyLower d2.className).any fun cls =>
        strHasSub "frein" cls) = true :=
      List.any_eq_true.mpr ⟨pyLower d.className, List.mem_map.mpr ⟨d, hd, rfl⟩, hsub⟩
    have h1 : msgBrake ∈ component_diagnoses.foldl
        (fun acc cd =>
          if ((ds.map fun d2 => pyLower d2.className).any fun cls => strHasSub cd.1 cls) = true
          then acc ++ [cd.2] else acc) [] := by
      rw [component_diagnoses, List.foldl_cons, if_pos hany]
      exact mem_foldl_cond_append _ _ _ _ msgBrake (by simp)
    exact mem_ite_isEmpty _ _ _
      (mem_ite_append _ _ _ _ (mem_ite_append _ _ _ _ (mem_ite_append _ _ _ _ h1)))

/-- C4 witness: a single detection of class "frein" yields the brake
advisory among the diagnoses. -/
theorem generate_diagnoses_empty_and_frein_witness :
    msgBrake ∈ ImageRecognitionEngine.generate_diagnoses [⟨"frein", (1:ℚ), 0, 0, 10, 10⟩] :=
  generate_diagnoses_empty_and_frein.2 [⟨"frein", (1:ℚ), 0, 0, 10, 10⟩]
    ⟨⟨"frein", (1:ℚ), 0, 0, 10, 10⟩, by simp, by decide⟩

/-- C3: the anomaly list of `_detect_anomalies` is sorted in descending
score order and is, as a multiset, exactly one entry per (keyword, label)
pair whose keyword is a case-insensitive substring of the label — no
de-duplication: several keywords matching one label give several entries. -/
theorem detect_anomalies_sorted_complete :
    ∀ labels : List (String × ℚ),
      List.Pairwise (fun a b : Anomaly => b.score ≤ a.score)
        (ImageRecognitionEngine.detect_anomalies labels) ∧
      (ImageRecognitionEngine.detect_anomalies labels).Perm
        (((anomaly_keywords.product labels).filter fun kl =>
            strHasSub (pyLower kl.1) (pyLower kl.2.1)).map
          fun kl => (⟨kl.1, kl.2.1, kl.2.2⟩ : Anomaly)) := by
  intro labels
  unfold ImageRecognitionEngine.detect_anomalies
  constructor
  · exact List.sorted_insertionSort _ _
  · have hks : ∀ k ∈ anomaly_keywords, pyLower k = k := by decide
    rw [← collect_eq anomaly_keywords hks labels]
    exact List.perm_insertionSort _ _

/-- C3 witness: on labels "rusty bolt" (score 2) and "cracked glass"
(score 3) the matched pairs appear with "cracked glass" entries first. -/
theorem detect_anomalies_sorted_complete_witness :
    List.Pairwise (fun a b : Anomaly => b.score ≤ a.score)
      (ImageRecognitionEngine.detect_anomalies
        [("rusty bolt", (2:ℚ)), ("cracked glass", (3:ℚ))]) :=
  (detect_anomalies_sorted_complete [("rusty bolt", (2:ℚ)), ("cracked glass", (3:ℚ))]).1

/-- C7: with an initialized engine, `analyze_image` yields an input-error
dict exactly when Python-truthily no path and no array were supplied, or a
non-empty path was supplied and cannot be decoded; and in those cases no
analysis work is attempted. -/
theorem analyze_image_input_error_iff :
    ∀ (e : ImageRecognitionEngine) (env : CvEnv) (p : Option String) (a : Option Image),
      e.isInit = true →
      (IsInputError p (e.analyze_image env p a).1 ↔
        (truthy p = false ∧ a = none) ∨
          ∃ s, p = some s ∧ s ≠ "" ∧ env.imread s = none) ∧
      (IsInputError p (e.analyze_image env p a).1 → (e.analyze_image env p a).2 = []) := by
  intro e env p a hinit
  have hinit2 : ¬ (e.isInit = false) := by rw [hinit]; simp
  unfold ImageRecognitionEngine.analyze_image
  rw [if_neg hinit2]
  cases p with
  | none =>
    dsimp only
    cases a with
    | some img =>
      refine ⟨⟨fun h => absurd h (not_inputError_dispatch e img none), ?_⟩,
        fun h => absurd h (not_inputError_dispatch e img none)⟩
      rintro (⟨ht, ha⟩ | ⟨s, hs, hrest⟩)
      · exact absurd ha (by simp)
      · exact absurd hs (by simp)
    | none =>
      refine ⟨⟨fun _ => Or.inl ⟨rfl, rfl⟩, fun _ => Or.inl rfl⟩, fun _ => rfl⟩
  | some s =>
    dsimp only
    by_cases hs : (s == "") = true
    · rw [if_pos hs]
      have hseq : s = "" := eq_of_beq hs
      cases a with
      | some img =>
        refine ⟨⟨fun h => absurd h (not_inputError_dispatch e img (some s)), ?_⟩,
          fun h => absurd h (not_inputError_dispatch e img (some s))⟩
        rintro (⟨ht, ha⟩ | ⟨s2, hs2, hne2, him2⟩)
        · exact absurd ha (by simp)
        · exact (hne2 ((Option.some.inj hs2).symm.trans hseq)).elim
      | none =>
        refine ⟨⟨fun _ => Or.inl ⟨by simp [truthy, hs], rfl⟩, fun _ => Or.inl rfl⟩,
          fun _ => rfl⟩
    · rw [if_neg hs]
      have hsne : s ≠ "" := fun h2 => hs (by simp [h2])
      cases hi : env.imread s with
      | none =>
        refine ⟨⟨fun _ => Or.inr ⟨s, rfl, hsne, hi⟩, fun _ => Or.inr ⟨s, rfl, rfl⟩⟩,
          fun _ => rfl⟩
      | some img =>
        refine ⟨⟨fun h => absurd h (not_inputError_dispatch e img (some s)), ?_⟩,
          fun h => absurd h (not_inputError_dispatch e img (some s))⟩
        rintro (⟨ht, ha⟩ | ⟨s2, hs2, hne2, him2⟩)
        · simp [truthy] at ht
          exact (hsne ht).elim
        · rw [(Option.some.inj hs2).symm, hi] at him2
          exact absurd him2 (by simp)

/-- C7 witness: with nothing supplied at all, the result is the
"no image supplied" input-error dict. -/
theorem analyze_image_input_error_iff_witness :
    IsInputError none
      ((⟨true, none, [], (0:ℚ), true⟩ : ImageRecognitionEngine).analyze_image
        ⟨fun _ => none⟩ none none).1 :=
  ((analyze_image_input_error_iff _ _ _ _ rfl).1).mpr (Or.inl ⟨rfl, rfl⟩)
